import Mathlib

/-!
Verification of the template resolution, synchronization and content-filling
engine of `linear-cli` (Go). Each Go function used by the claims is embedded
as an executable Lean definition that mirrors the source line by line;
theorems about these definitions settle the claims.

Strings are Lean `String`s; the Go standard-library string helpers used by
the source (`strings.TrimSpace`, `strings.ToLower`, `strings.HasPrefix`,
`strings.TrimPrefix`, `strings.Split`, `strings.Join`) are re-implemented
below by structural recursion on `String.data` so that every definition
evaluates inside the kernel. The ASCII fragment of Go's Unicode case/space
handling is modelled; all inputs in the claims are ASCII.
-/

/-- ASCII fragment of Go's `unicode.IsSpace` (space, tab, newline, vertical
tab, form feed, carriage return). -/
def goIsSpace (c : Char) : Bool :=
  c = ' ' || c = '\t' || c = '\n' || c = Char.ofNat 11 || c = Char.ofNat 12 || c = '\r'

/-- Go `strings.TrimSpace` (ASCII fragment): drop whitespace from both ends. -/
def goTrimSpace (s : String) : String :=
  String.mk (((s.data.dropWhile goIsSpace).reverse.dropWhile goIsSpace).reverse)

/-- Go `strings.ToLower` (ASCII fragment): lowercase every character. -/
def goToLower (s : String) : String :=
  String.mk (s.data.map Char.toLower)

/-- Go `strings.HasPrefix`. -/
def hasPre (s p : String) : Bool :=
  p.data.isPrefixOf s.data

/-- Go `strings.TrimPrefix`: remove `p` from the front of `s` when present,
otherwise return `s` unchanged. -/
def trimPre (s p : String) : String :=
  if hasPre s p then String.mk (s.data.drop p.data.length) else s

/-- Go `strings.Split(s, "\n")`. -/
def splitNlAux : List Char → List Char → List String
  | [], acc => [String.mk acc.reverse]
  | c :: cs, acc =>
    if c = '\n' then String.mk acc.reverse :: splitNlAux cs []
    else splitNlAux cs (c :: acc)

/-- Go `strings.Split(s, "\n")`: split a string at newline characters. -/
def splitNl (s : String) : List String :=
  splitNlAux s.data []

/-- Go `strings.Join(lines, "\n")`. -/
def joinNl : List String → String
  | [] => ""
  | [s] => s
  | s :: ss => s ++ "\n" ++ joinNl ss

/-!
### Title-prefix convention

`parseTitlePrefixAndStrip` (src/cmd/issues_adv.go:1776-1785):

```
lines := strings.Split(tpl, "\n")
if len(lines) == 0 { return "", tpl }
first := strings.TrimSpace(lines[0])
if strings.HasPrefix(strings.ToLower(first), "title-prefix:") {
    val := strings.TrimSpace(strings.TrimPrefix(first, "title-prefix:"))
    return val, strings.Join(lines[1:], "\n")
}
return "", tpl
```
-/

/-- Embedding of `parseTitlePrefixAndStrip`. Returns `(prefixValue, body)`.
Note that the detection uses a lowercased copy of the first line while
`strings.TrimPrefix` runs on the original (non-lowercased) line. -/
def parseTitlePrefixAndStrip (tpl : String) : String × String :=
  match splitNl tpl with
  | [] => ("", tpl)
  | first0 :: rest =>
    let first := goTrimSpace first0
    if hasPre (goToLower first) "title-prefix:" then
      (goTrimSpace (trimPre first "title-prefix:"), joinNl rest)
    else
      ("", tpl)

/-- Embedding of the caller in `issuesCreateAdvCmd`
(src/cmd/issues_adv.go:1064-1069): apply the parsed title prefix to the
issue title and strip the metadata line from the body.

```
if prefix, body := parseTitlePrefixAndStrip(tplContent); prefix != "" {
    if !strings.HasPrefix(strings.TrimSpace(title), prefix) {
        title = strings.TrimSpace(prefix + " " + title)
    }
    tplContent = body
}
```
Returns `(finalTitle, finalBody)`. -/
def applyTitlePrefixAndStrip (tplContent title : String) : String × String :=
  let pb := parseTitlePrefixAndStrip tplContent
  if pb.1 ≠ "" then
    (if hasPre (goTrimSpace title) pb.1 then title else goTrimSpace (pb.1 ++ " " ++ title),
     pb.2)
  else
    (title, tplContent)

/-!
### Token substitution: `fillTemplate` (src/cmd/issues_adv.go:1649-1693)

The Go code scans the body with the regular expression
`\{\{\s*([A-Za-z0-9_\-]+)(?:\|([^\x7d]+))?\s*\}\}` via
`FindAllStringSubmatch` / `ReplaceAllStringFunc`. The body is embedded as
the alternating sequence of literal text and regex matches this scan
produces: `Seg.lit s` is literal text, `Seg.tok raw key prompt` is one
match with whole-match text `raw` (`m[0]`), key group `key` (`m[1]`) and
optional prompt group `prompt` (`m[2]`).
-/

deriving instance DecidableEq for Except

/-- One element of the regex scan of a template body. -/
inductive Seg where
  | lit : String → Seg
  | tok : String → String → Option String → Seg
deriving DecidableEq, Repr

/-- First-match lookup in an association list. Go maps are modelled as
association lists whose most recent insertion sits at the head, so this
lookup returns the value of the latest insertion, as a Go map read does. -/
def lookupV {α : Type} (m : List (String × α)) (k : String) : Option α :=
  match m with
  | [] => none
  | (k', v) :: m' => if k' = k then some v else lookupV m' k

/-- Record a key into the `seen` set, keeping first-occurrence order as the
canonical enumeration of the set (`seen[m[1]] = struct\x7b\x7d{}` in Go). -/
def insertOnce (acc : List String) (k : String) : List String :=
  if k ∈ acc then acc else acc ++ [k]

/-- The unique placeholder keys of the body, in first-occurrence order
(the membership of Go's `seen` map). -/
def collectSeen (segs : List Seg) : List String :=
  segs.foldl
    (fun acc s =>
      match s with
      | Seg.lit _ => acc
      | Seg.tok _ k _ => insertOnce acc k)
    []

/-- The `prompts` map: for each match with a prompt group whose trimmed text
is non-empty, `prompts[m[1]] = strings.TrimSpace(m[2])`; a later match
overwrites an earlier one, modelled by consing the later write on top. -/
def collectPrompts (segs : List Seg) : List (String × String) :=
  segs.foldl
    (fun acc s =>
      match s with
      | Seg.lit _ => acc
      | Seg.tok _ _ none => acc
      | Seg.tok _ k (some p) =>
        if goTrimSpace p ≠ "" then (k, goTrimSpace p) :: acc else acc)
    []

/-- `for key := range seen { if _, ok := vars[key]; !ok { missing = append(missing, key) } }`.
Go's map iteration order is unspecified; it is modelled by the parameter
`order`, an arbitrary permutation of `collectSeen segs`. -/
def missingKeys (order : List String) (vars : List (String × String)) : List String :=
  order.filter (fun k => (lookupV vars k).isNone)

/-- The prompt printed for one missing key: its prompt text followed by
a newline and `> ` when present, otherwise the bare key followed by `: `. -/
def promptText (prompts : List (String × String)) (k : String) : String :=
  match lookupV prompts k with
  | some p => p ++ "\n> "
  | none => k ++ ": "

/-- Interactive loop: for each missing key in order, read one line from
stdin (`inputs`; an exhausted stdin reads as the empty string) and store
its trimmed text under the key. -/
def promptVars : List String → List String → List (String × String) → List (String × String)
  | [], _, vars => vars
  | k :: ks, [], vars => promptVars ks [] ((k, "") :: vars)
  | k :: ks, i :: is, vars => promptVars ks is ((k, goTrimSpace i) :: vars)

/-- Go `strings.Join(xs, ", ")`. -/
def joinComma : List String → String
  | [] => ""
  | [s] => s
  | s :: ss => s ++ ", " ++ joinComma ss

/-- `ReplaceAllStringFunc`: a match whose key has a value is replaced by it,
any other match is returned verbatim; literal text is unchanged. -/
def renderSeg (vars : List (String × String)) : Seg → String
  | Seg.lit s => s
  | Seg.tok raw k _ =>
    match lookupV vars k with
    | some v => v
    | none => raw

/-- The substituted body: concatenation of the rendered segments. -/
def renderSegs (vars : List (String × String)) (segs : List Seg) : String :=
  String.join (segs.map (renderSeg vars))

/-- Outcome of one `fillTemplate` run: the returned value or error, plus the
sequence of prompts printed on stdout. -/
structure FillRun where
  result : Except String String
  shown : List String
deriving DecidableEq, Repr

/-- Embedding of `fillTemplate(tpl, vars, interactive, failOnMissing)`.
`order` models the unspecified iteration order of the Go map `seen`
(a permutation of `collectSeen segs`); `inputs` models stdin lines. -/
def fillTemplate (segs : List Seg) (vars : List (String × String))
    (interactive failOnMissing : Bool) (order : List String) (inputs : List String) :
    FillRun :=
  let prompts := collectPrompts segs
  let missing0 := missingKeys order vars
  let st :=
    if interactive = true ∧ missing0 ≠ [] then
      let vars' := promptVars missing0 inputs vars
      (vars', missingKeys order vars', missing0.map (promptText prompts))
    else
      (vars, missing0, ([] : List String))
  if failOnMissing = true ∧ st.2.1 ≠ [] then
    { result := Except.error ("missing values for: " ++ joinComma st.2.1), shown := st.2.2 }
  else
    { result := Except.ok (renderSegs st.1 segs), shown := st.2.2 }

/-!
### `gatherVars` (src/cmd/issues_adv.go:1788-1810)

CLI `key=value` assignments are inserted first (trimmed), then every entry
of the decoded JSON variables file is inserted on top (`out[k] = v`),
overwriting. File reading and JSON decoding are I/O and are modelled by
passing the already-decoded object (`none` when no file was given; the Go
map iteration order over the object is the list order, which is irrelevant
because JSON objects decode to maps with unique keys).
-/

/-- Go `strings.SplitN(kv, "=", 2)` when it yields two parts: split at the
first `=`, returning `none` when there is none. -/
def splitEq : List Char → Option (List Char × List Char)
  | [] => none
  | c :: cs =>
    if c = '=' then some ([], cs)
    else
      match splitEq cs with
      | some (l, r) => some (c :: l, r)
      | none => none

/-- The CLI-assignment loop of `gatherVars`: skip empty strings, reject a
string without `=`, insert `(TrimSpace(key), TrimSpace(value))`. -/
def parseKvsAux (acc : List (String × String)) :
    List String → Except String (List (String × String))
  | [] => Except.ok acc
  | kv :: rest =>
    if kv = "" then parseKvsAux acc rest
    else
      match splitEq kv.data with
      | none => Except.error ("invalid --var, expect key=value: " ++ kv)
      | some (l, r) =>
        parseKvsAux ((goTrimSpace (String.mk l), goTrimSpace (String.mk r)) :: acc) rest

/-- Embedding of `gatherVars(kvs, file)`. -/
def gatherVars (kvs : List String) (fileVars : Option (List (String × String))) :
    Except String (List (String × String)) :=
  match parseKvsAux [] kvs with
  | Except.error e => Except.error e
  | Except.ok out =>
    match fileVars with
    | none => Except.ok out
    | some m => Except.ok (m.foldl (fun acc kv => kv :: acc) out)

/-!
### Section substitution (src/cmd/issues_adv.go:1905-1961)
-/

/-- A line is a section heading when its trimmed text starts with `### `
or `## ` (the check in `fillSingleSection`). -/
def isSectionHeading (line : String) : Bool :=
  hasPre (goTrimSpace line) "### " || hasPre (goTrimSpace line) "## "

/-- `strings.TrimPrefix(strings.TrimPrefix(line, "### "), "## ")` applied to
the trimmed line: the heading text compared against the section name. -/
def headerName (line : String) : String :=
  trimPre (trimPre (goTrimSpace line) "### ") "## "

/-- The suffix of the remaining lines that starts at the next section
heading; empty when no further heading exists (the inner scan for
`nextSectionIdx`). -/
def dropUntilHeading : List String → List String
  | [] => []
  | l :: ls => if isSectionHeading l then l :: ls else dropUntilHeading ls

/-- The line scan of `fillSingleSection`: find the first heading whose text
equals `name`, keep everything up to and including it, insert a blank line,
the content, another blank line, and resume at the next heading (or nothing
when there is none). `none` when no heading matches. -/
def fillSectionLines (name content : String) : List String → Option (List String)
  | [] => none
  | l :: ls =>
    if isSectionHeading l = true ∧ headerName l = name then
      some (l :: "" :: content :: "" :: dropUntilHeading ls)
    else
      match fillSectionLines name content ls with
      | some ls' => some (l :: ls')
      | none => none

/-- Embedding of `fillSingleSection(templateContent, sectionName, content)`:
returns the body unchanged when the section is not found. -/
def fillSingleSection (templateContent sectionName content : String) : String :=
  match fillSectionLines sectionName content (splitNl templateContent) with
  | some ls => joinNl ls
  | none => templateContent

/-- Embedding of `fillTemplateSectionsDynamically(templateContent, sections)`:
fold `fillSingleSection` over the supplied pairs. The Go map iteration
order is the list order. -/
def fillTemplateSectionsDynamically (templateContent : String)
    (sections : List (String × String)) : String :=
  sections.foldl (fun filled kv => fillSingleSection filled kv.1 kv.2) templateContent

/-!
### Filename sanitization (src/cmd/templates.go:580-595)
-/

/-- A character kept by `sanitizeFilename`: lowercase ASCII letter, digit,
or hyphen. -/
def allowedFileChar (c : Char) : Bool :=
  ('a' ≤ c && c ≤ 'z') || ('0' ≤ c && c ≤ '9') || c = '-'

/-- Go `strings.Trim(s, "-")`: drop hyphens from both ends. -/
def goTrimHyphens (s : String) : String :=
  String.mk (((s.data.dropWhile (· = '-')).reverse.dropWhile (· = '-')).reverse)

/-- Embedding of `sanitizeFilename`, phase by phase: `strings.ToLower`,
`ReplaceAll(" ", "-")`, `ReplaceAll("_", "-")` (character-wise, as the
patterns are single characters), the keep-loop over `[a-z0-9-]`, and
`strings.Trim(_, "-")`. -/
def sanitizeFilename (name : String) : String :=
  let lowered := goToLower name
  let hyph1 := String.mk (lowered.data.map (fun c => if c = ' ' then '-' else c))
  let hyph2 := String.mk (hyph1.data.map (fun c => if c = '_' then '-' else c))
  let kept := String.mk (hyph2.data.filter allowedFileChar)
  goTrimHyphens kept

/-- The sanitization rule as the specification states it: lowercase the
name, turn each space and underscore into a hyphen, remove every remaining
character that is not a lowercase ASCII letter, digit, or hyphen, and trim
leading and trailing hyphens. -/
def sanitizeFilenameSpec (name : String) : String :=
  let replaced := (name.data.map Char.toLower).map
    (fun c => if c = ' ' ∨ c = '_' then '-' else c)
  let kept := replaced.filter
    (fun c => ('a' ≤ c ∧ c ≤ 'z') ∨ ('0' ≤ c ∧ c ≤ '9') ∨ c = '-')
  String.mk (((kept.dropWhile (· = '-')).reverse.dropWhile (· = '-')).reverse)

/-!
### Local template cache and synchronizer (src/cmd/templates.go)

Time (`time.Time`) is modelled as a `Nat` timestamp; the rendering of
`time.Since(..).Round(time.Minute).String()` is modelled by an abstract
duration formatter `fmtSince : Nat → String`. The filesystem is the set of
existing file paths, a `List String`; `filepath.Join` is modelled by
`joinPath`. Remote calls (`IssueByID`, `CreateIssueAdvanced`) are the
collaborator capabilities of the spec, modelled as function parameters
returning `none` on error.
-/

/-- `api.IssueTemplate`: one entry of the remote template catalog
(the description field plays no role in synchronization). -/
structure IssueTemplate where
  id : String
  name : String
deriving DecidableEq, Repr

/-- `TemplateInfo` (src/cmd/templates.go:31-39). -/
structure TemplateInfo where
  id : String
  name : String
  filename : String
  lastSync : Nat
  description : String
  refIssueID : String
  refIssueKey : String
deriving DecidableEq, Repr

/-- `TeamTemplates` (src/cmd/templates.go:24-29); the `Templates` Go map is
an association list with unique keys, iterated in list order. -/
structure TeamTemplates where
  teamID : String
  teamKey : String
  templates : List (String × TemplateInfo)
  lastSync : Nat
deriving DecidableEq, Repr

/-- `TemplateMetadata` (src/cmd/templates.go:19-22). -/
structure TemplateMetadata where
  templates : List (String × TeamTemplates)
  lastSync : Nat
deriving DecidableEq, Repr

/-- `SyncResult` (src/cmd/templates.go:41-47); zero values for the fields a
branch does not set. -/
structure SyncResult where
  skipReason : String
  syncSummary : String
  newTemplates : Nat
  updatedTemplates : Nat
  removedTemplates : Nat
deriving DecidableEq, Repr

/-- `api.Team`. -/
structure Team where
  id : String
  key : String
deriving DecidableEq, Repr

/-- `api.Issue`, restricted to the fields the synchronizer reads. -/
structure Issue where
  id : String
  identifier : String
  title : String
  description : String
deriving DecidableEq, Repr

/-- `api.IssueCreateInput`, restricted to the fields the synchronizer sets. -/
structure IssueCreateInput where
  teamID : String
  templateID : String
  title : String
deriving DecidableEq, Repr

/-- The remote collaborator: `client.IssueByID` and
`client.CreateIssueAdvanced`; `none` models an error or missing record. -/
structure RemoteOps where
  issueByID : String → Option Issue
  createIssueAdvanced : IssueCreateInput → Option Issue

/-- Go `strings.ToUpper` (ASCII fragment). -/
def goToUpper (s : String) : String :=
  String.mk (s.data.map Char.toUpper)

/-- `filepath.Join` of two components. -/
def joinPath (a b : String) : String :=
  a ++ "/" ++ b

/-- `fileExists` (src/cmd/templates.go:598-601): membership in the set of
existing paths. -/
def fileExists (fs : List String) (path : String) : Bool :=
  fs.contains path

/-- Go map insert `m[k] = v`: the new binding shadows and replaces any old
binding of `k`. -/
def insertV {α : Type} (m : List (String × α)) (k : String) (v : α) :
    List (String × α) :=
  (k, v) :: m.filter (fun kv => kv.1 ≠ k)

/-- Go map delete `delete(m, k)`. -/
def removeKey {α : Type} (m : List (String × α)) (k : String) :
    List (String × α) :=
  m.filter (fun kv => kv.1 ≠ k)

/-- Filesystem write: the path now exists (set insert). -/
def insertPath (fs : List String) (p : String) : List String :=
  if fs.contains p then fs else p :: fs

/-!
#### Cache lookups (`GetLocalTemplate`, `GetLocalTemplatesForTeam`)

`loadTemplateMetadata` and `os.ReadFile` are I/O; their outcomes are the
parameters `metadata` (`none` models a failed metadata load) and
`readFile` (`none` models a read error).
-/

/-- The recovery hint interpolated into the two `no templates found`
errors: `Run 'linear-cli templates sync --team %s' first`. -/
def syncHint (teamKey : String) : String :=
  "Run \x27linear-cli templates sync --team " ++ teamKey ++ "\x27 first"

/-- Embedding of `GetLocalTemplate` (src/cmd/templates.go:640-670). -/
def GetLocalTemplate (templatesDir : String) (metadata : Option TemplateMetadata)
    (readFile : String → Option String) (teamKey templateName : String) :
    Except String (TemplateInfo × String) :=
  match metadata with
  | none =>
    Except.error ("no templates found. " ++ syncHint teamKey)
  | some md =>
    let tk := goToUpper (goTrimSpace teamKey)
    match lookupV md.templates tk with
    | none =>
      Except.error ("no templates found for team " ++ tk ++ ". " ++ syncHint tk)
    | some teamData =>
      match lookupV teamData.templates templateName with
      | none =>
        Except.error ("template \x27" ++ templateName ++ "\x27 not found for team " ++ tk)
      | some template =>
        match readFile (joinPath (joinPath templatesDir tk) template.filename) with
        | none => Except.error "failed to read template file"
        | some content => Except.ok (template, content)

/-- Embedding of `GetLocalTemplatesForTeam` (src/cmd/templates.go:673-696). -/
def GetLocalTemplatesForTeam (metadata : Option TemplateMetadata) (teamKey : String) :
    Except String (List TemplateInfo) :=
  match metadata with
  | none =>
    Except.error ("no templates found. " ++ syncHint teamKey)
  | some md =>
    let tk := goToUpper (goTrimSpace teamKey)
    match lookupV md.templates tk with
    | none =>
      Except.error ("no templates found for team " ++ tk ++ ". " ++ syncHint tk)
    | some teamData => Except.ok (teamData.templates.map Prod.snd)

/-- Helper for substring containment: does `sub` occur in the list? -/
def containsSubAux (sub : List Char) : List Char → Bool
  | [] => sub.isEmpty
  | c :: cs => sub.isPrefixOf (c :: cs) || containsSubAux sub cs

/-- Substring containment (Go `strings.Contains`), for checking that an
error message carries the sync recovery hint. -/
def containsSub (s sub : String) : Bool :=
  containsSubAux sub.data s.data

/-!
#### Synchronizer (`syncTeamTemplatesIntelligent`, src/cmd/templates.go:388-516)
-/

/-- The partition test for **new** (name absent from the cache, or no cached
team data at all) — the first two arms of the classification loop. -/
def classifyIsNew (existing : Option TeamTemplates) (t : IssueTemplate) : Bool :=
  match existing with
  | none => true
  | some td => (lookupV td.templates t.name).isNone

/-- The partition test for **updated** (name present, but the remote id
differs from the cached id or the cached file is missing from disk) —
src/cmd/templates.go:415-423. -/
def classifyIsUpdated (fs : List String) (templatesDir : String) (team : Team)
    (existing : Option TeamTemplates) (t : IssueTemplate) : Bool :=
  match existing with
  | none => false
  | some td =>
    match lookupV td.templates t.name with
    | none => false
    | some e =>
      e.id != t.id || !fileExists fs (joinPath (joinPath templatesDir team.key) e.filename)

/-- `newTemplates`, in catalog order. -/
def newPartition (existing : Option TeamTemplates) (templates : List IssueTemplate) :
    List IssueTemplate :=
  templates.filter (classifyIsNew existing)

/-- `updatedTemplates`, in catalog order. -/
def updatedPartition (fs : List String) (templatesDir : String) (team : Team)
    (existing : Option TeamTemplates) (templates : List IssueTemplate) :
    List IssueTemplate :=
  templates.filter (classifyIsUpdated fs templatesDir team existing)

/-- `removedTemplateNames`: cached names absent from the current catalog
(iterating the cached map in list order; Go's map order is unspecified). -/
def removedPartition (existing : Option TeamTemplates) (templates : List IssueTemplate) :
    List String :=
  match existing with
  | none => []
  | some td =>
    (td.templates.map Prod.fst).filter (fun n => !(templates.map IssueTemplate.name).contains n)

/-- Embedding of `syncSingleTemplate` (src/cmd/templates.go:518-576): reuse
the cached reference issue when it still fetches, otherwise create a new
`[TEMPLATE-REF]`-titled issue from the template; extract the body from its
description (placeholder body when empty); write the file and upsert the
cache entry. `none` models the error return (reference-issue creation
failed); the file write is modelled as always succeeding. -/
def syncSingleTemplate (ops : RemoteOps) (team : Team) (t : IssueTemplate) (now : Nat)
    (teamDir : String) (st : TeamTemplates × List String) :
    Option (TeamTemplates × List String) :=
  let reused : Option Issue :=
    match lookupV st.1.templates t.name with
    | some e => if e.refIssueID ≠ "" then ops.issueByID e.refIssueID else none
    | none => none
  let refIssue : Option Issue :=
    match reused with
    | some i => some i
    | none =>
      ops.createIssueAdvanced
        { teamID := team.id, templateID := t.id, title := "[TEMPLATE-REF] " ++ t.name }
  match refIssue with
  | none => none
  | some ri =>
    let content :=
      if ri.description = "" then "# " ++ t.name ++ "\n\n(No template content available)"
      else ri.description
    let filename := sanitizeFilename t.name ++ ".md"
    some
      ({ st.1 with
          templates := insertV st.1.templates t.name
            { id := t.id, name := t.name, filename := filename, lastSync := now,
              description := content, refIssueID := ri.id, refIssueKey := ri.identifier } },
       insertPath st.2 (joinPath teamDir filename))

/-- One iteration of the new/updated processing loops: a failing
`syncSingleTemplate` prints a warning and leaves the state unchanged. -/
def syncStep (ops : RemoteOps) (team : Team) (now : Nat) (teamDir : String)
    (st : TeamTemplates × List String) (t : IssueTemplate) :
    TeamTemplates × List String :=
  match syncSingleTemplate ops team t now teamDir st with
  | some st' => st'
  | none => st

/-- One iteration of the removal loop: delete the file (best effort) and
drop the cache entry. -/
def removeStep (teamDir : String) (st : TeamTemplates × List String) (n : String) :
    TeamTemplates × List String :=
  match lookupV st.1.templates n with
  | some e =>
    ({ st.1 with templates := removeKey st.1.templates n },
     st.2.erase (joinPath teamDir e.filename))
  | none => st

/-- The synchronizer's per-team state: the team's entry in
`metadata.Templates` (`none` before the first sync) and the filesystem. -/
structure SyncState where
  existing : Option TeamTemplates
  fs : List String
deriving DecidableEq, Repr

/-- Embedding of `syncTeamTemplatesIntelligent` for one team whose remote
catalog is `templates` (the result of `ListIssueTemplatesForTeam`). -/
def syncTeamTemplatesIntelligent (ops : RemoteOps) (team : Team)
    (templatesDir : String) (templates : List IssueTemplate) (now : Nat)
    (fmtSince : Nat → String) (st : SyncState) : SyncState × SyncResult :=
  if templates = [] then
    (st, { skipReason := "No templates found", syncSummary := "",
           newTemplates := 0, updatedTemplates := 0, removedTemplates := 0 })
  else
    let newT := newPartition st.existing templates
    let updT := updatedPartition st.fs templatesDir team st.existing templates
    let remN := removedPartition st.existing templates
    if newT = [] ∧ updT = [] ∧ remN = [] then
      let timeSince :=
        match st.existing with
        | some td => fmtSince (now - td.lastSync) ++ " ago"
        | none => "never"
      (st, { skipReason := "Up to date (" ++ toString templates.length
               ++ " templates, last synced " ++ timeSince ++ ")",
             syncSummary := "",
             newTemplates := 0, updatedTemplates := 0, removedTemplates := 0 })
    else
      let teamDir := joinPath templatesDir team.key
      let tt0 : TeamTemplates :=
        match st.existing with
        | some td => { td with lastSync := now }
        | none => { teamID := team.id, teamKey := team.key, templates := [], lastSync := now }
      let acc1 := newT.foldl (syncStep ops team now teamDir) (tt0, st.fs)
      let acc2 := updT.foldl (syncStep ops team now teamDir) acc1
      let acc3 := remN.foldl (removeStep teamDir) acc2
      ({ existing := some acc3.1, fs := acc3.2 },
       { skipReason := "",
         syncSummary := "Synced successfully (" ++ toString newT.length ++ " new, "
           ++ toString updT.length ++ " updated, " ++ toString remN.length ++ " removed)",
         newTemplates := newT.length, updatedTemplates := updT.length,
         removedTemplates := remN.length })

/-- The cached entry of name `n` in a team's (possibly absent) cache data. -/
def cachedLookup (existing : Option TeamTemplates) (n : String) : Option TemplateInfo :=
  match existing with
  | none => none
  | some td => lookupV td.templates n

/-!
#### Concrete instances for counterexamples and witnesses
-/

/-- A remote collaborator whose create operation always succeeds and whose
fetch never finds a record. -/
def okOps : RemoteOps :=
  { issueByID := fun _ => none,
    createIssueAdvanced := fun inp =>
      some { id := "R" ++ inp.templateID, identifier := "ENG-9",
             title := inp.title, description := "body text" } }

/-- A concrete team. -/
def engTeam : Team := { id := "T1", key := "ENG" }

/-- A cached entry for template name `My Temp`, whose sanitized filename
`my-temp.md` coincides with that of the distinct name `My_Temp`. -/
def c7OldInfo : TemplateInfo :=
  { id := "old-id", name := "My Temp", filename := "my-temp.md", lastSync := 0,
    description := "cached", refIssueID := "", refIssueKey := "" }

/-- Cache state holding only `My Temp`, with its file present on disk. -/
def c7State0 : SyncState :=
  { existing := some { teamID := "T1", teamKey := "ENG",
                       templates := [("My Temp", c7OldInfo)], lastSync := 5 },
    fs := ["dir/ENG/my-temp.md"] }

/-- Remote catalog in which `My Temp` was renamed to `My_Temp` (a distinct
name with the same sanitized filename). -/
def c7Catalog : List IssueTemplate := [{ id := "new1", name := "My_Temp" }]

/-- Metadata whose team `ENG` is cached but holds no template named `bug`. -/
def c4Metadata : TemplateMetadata :=
  { templates := [("ENG", { teamID := "T1", teamKey := "ENG",
                            templates := [], lastSync := 0 })],
    lastSync := 0 }

/-!
## Theorems

General helper lemmas, then one theorem per claim (with its witness or
counterexample).
-/

theorem lookupV_eq_none_iff {α : Type} (m : List (String × α)) (k : String) :
    lookupV m k = none ↔ k ∉ m.map Prod.fst := by
  induction m with
  | nil => simp [lookupV]
  | cons kv m ih =>
    obtain ⟨k', v⟩ := kv
    by_cases h : k' = k
    · subst h
      simp [lookupV]
    · have h2 : ¬k = k' := fun hh => h hh.symm
      simp [lookupV, h, h2, ih]

theorem lookupV_append_left {α : Type} (m₁ m₂ : List (String × α)) (k : String) (v : α)
    (h : lookupV m₁ k = some v) : lookupV (m₁ ++ m₂) k = some v := by
  induction m₁ with
  | nil => simp [lookupV] at h
  | cons kv m ih =>
    obtain ⟨k', v'⟩ := kv
    by_cases hk : k' = k <;> simp_all [lookupV, hk]

theorem lookupV_of_mem_nodup {α : Type} (m : List (String × α)) (k : String) (v : α)
    (hnd : (m.map Prod.fst).Nodup) (hmem : (k, v) ∈ m) : lookupV m k = some v := by
  induction m with
  | nil => simp at hmem
  | cons kv m ih =>
    obtain ⟨k', v'⟩ := kv
    simp only [List.map_cons, List.nodup_cons] at hnd
    rcases List.mem_cons.mp hmem with h | h
    · obtain ⟨rfl, rfl⟩ := Prod.mk.injEq .. ▸ h
      simp [lookupV]
    · have hk : k' ≠ k := by
        rintro rfl
        exact hnd.1 (List.mem_map.mpr ⟨(k', v), h, rfl⟩)
      simp [lookupV, hk, ih hnd.2 h]

/-- The claim C1 records about `parseTitlePrefixAndStrip` and its caller:
with body `"Title-Prefix: Feat:\n## Summary\nplaceholder\n"` and title
`"Add search"`, the stripped body is as specified, but because
`strings.TrimPrefix(first, "title-prefix:")` is case-sensitive while the
detection lowercases, the returned prefix keeps the `Title-Prefix:` key, so
the final title is `"Title-Prefix: Feat: Add search"`, not the specified
`"Feat: Add search"`. -/
theorem C1_title_prefix_case_bug :
    parseTitlePrefixAndStrip "Title-Prefix: Feat:\n## Summary\nplaceholder\n"
      = ("Title-Prefix: Feat:", "## Summary\nplaceholder\n")
    ∧ applyTitlePrefixAndStrip "Title-Prefix: Feat:\n## Summary\nplaceholder\n" "Add search"
      = ("Title-Prefix: Feat: Add search", "## Summary\nplaceholder\n")
    ∧ ("Title-Prefix: Feat: Add search" : String) ≠ "Feat: Add search" := by
  refine ⟨by decide, by decide, by decide⟩

/-- C8: `sanitizeFilename` agrees, on every name, with the specification's
pipeline (lowercase; spaces and underscores to hyphens; strip every other
character not in `[a-z0-9-]`; trim leading and trailing hyphens), and the
scenario `"Feature Template!"` sanitizes to `"feature-template"`. -/
theorem C8_sanitizeFilename :
    (∀ name : String, sanitizeFilename name = sanitizeFilenameSpec name)
    ∧ sanitizeFilename "Feature Template!" = "feature-template" := by
  constructor
  · intro name
    have hmap :
        ((name.data.map Char.toLower).map (fun c => if c = ' ' then '-' else c)).map
            (fun c => if c = '_' then '-' else c)
          = (name.data.map Char.toLower).map (fun c => if c = ' ' ∨ c = '_' then '-' else c) := by
      rw [List.map_map]
      refine List.map_congr_left ?_
      intro c _
      by_cases h1 : c = ' '
      · simp [h1, Function.comp]
      · by_cases h2 : c = '_' <;> simp [h1, h2, Function.comp]
    have hfilter : ∀ l : List Char,
        l.filter allowedFileChar
          = l.filter (fun c => ('a' ≤ c ∧ c ≤ 'z') ∨ ('0' ≤ c ∧ c ≤ '9') ∨ c = '-') := by
      intro l
      refine List.filter_congr ?_
      intro c _
      simp [allowedFileChar, Bool.or_assoc]
    simp only [sanitizeFilename, sanitizeFilenameSpec, goToLower, goTrimHyphens]
    congr 1
    rw [hmap, hfilter]
  · decide

/-- C10: with `interactive=false` and `failOnMissing=false`, `fillTemplate`
always succeeds and returns the substituted body, in which a token whose
key has no supplied value is left verbatim. -/
theorem C10_preview_never_fails (segs : List Seg) (vars : List (String × String))
    (order inputs : List String) :
    (fillTemplate segs vars false false order inputs).result
      = Except.ok (renderSegs vars segs)
    ∧ ∀ raw k p, lookupV vars k = none → renderSeg vars (Seg.tok raw k p) = raw := by
  constructor
  · simp [fillTemplate]
  · intro raw k p h
    simp [renderSeg, h]

/-- Witness for C10 at a concrete body with one unsupplied key. -/
theorem C10_witness :
    (fillTemplate [Seg.tok "\x7b\x7bA\x7d\x7d" "A" none] [] false false ["A"] []).result
      = Except.ok (renderSegs [] [Seg.tok "\x7b\x7bA\x7d\x7d" "A" none])
    ∧ renderSeg [] (Seg.tok "\x7b\x7bA\x7d\x7d" "A" none) = "\x7b\x7bA\x7d\x7d" :=
  ⟨(C10_preview_never_fails [Seg.tok "\x7b\x7bA\x7d\x7d" "A" none] [] ["A"] []).1,
   (C10_preview_never_fails [Seg.tok "\x7b\x7bA\x7d\x7d" "A" none] [] ["A"] []).2
     "\x7b\x7bA\x7d\x7d" "A" none rfl⟩

theorem mem_insertOnce (acc : List String) (k k' : String) :
    k' ∈ insertOnce acc k ↔ k' ∈ acc ∨ k' = k := by
  by_cases h : k ∈ acc
  · simp only [insertOnce, if_pos h]
    constructor
    · exact Or.inl
    · rintro (h' | rfl)
      · exact h'
      · exact h
  · simp [insertOnce, if_neg h]

theorem insertOnce_nodup (acc : List String) (k : String) (h : acc.Nodup) :
    (insertOnce acc k).Nodup := by
  by_cases hk : k ∈ acc
  · simpa [insertOnce, if_pos hk] using h
  · simp [insertOnce, if_neg hk, List.nodup_append, h, hk]

theorem collectSeen_go_nodup (segs : List Seg) :
    ∀ acc : List String, acc.Nodup →
      (segs.foldl
        (fun acc s =>
          match s with
          | Seg.lit _ => acc
          | Seg.tok _ k _ => insertOnce acc k) acc).Nodup := by
  induction segs with
  | nil => intro acc h; simpa using h
  | cons s segs ih =>
    intro acc h
    cases s with
    | lit t => exact ih acc h
    | tok raw k p => exact ih _ (insertOnce_nodup acc k h)

theorem collectSeen_nodup (segs : List Seg) : (collectSeen segs).Nodup :=
  collectSeen_go_nodup segs [] (by simp)

theorem collectPrompts_go_lookup (segs : List Seg) :
    ∀ (acc : List (String × String)) (k p : String),
      lookupV
        (segs.foldl
          (fun acc s =>
            match s with
            | Seg.lit _ => acc
            | Seg.tok _ _ none => acc
            | Seg.tok _ k' (some pr) =>
              if goTrimSpace pr ≠ "" then (k', goTrimSpace pr) :: acc else acc) acc) k
        = some p →
      lookupV acc k = some p
        ∨ ∃ raw pr, Seg.tok raw k (some pr) ∈ segs ∧ goTrimSpace pr = p := by
  induction segs with
  | nil => intro acc k p h; exact Or.inl h
  | cons s segs ih =>
    intro acc k p h
    cases s with
    | lit t =>
      rcases ih _ _ _ h with h' | ⟨raw, pr, hmem, hp⟩
      · exact Or.inl h'
      · exact Or.inr ⟨raw, pr, List.mem_cons_of_mem _ hmem, hp⟩
    | tok raw' k' pr? =>
      cases pr? with
      | none =>
        rcases ih _ _ _ h with h' | ⟨raw, pr, hmem, hp⟩
        · exact Or.inl h'
        · exact Or.inr ⟨raw, pr, List.mem_cons_of_mem _ hmem, hp⟩
      | some pr =>
        by_cases hpr : goTrimSpace pr ≠ ""
        · have h2 := h
          rw [List.foldl_cons] at h2
          simp only [if_pos hpr] at h2
          rcases ih _ _ _ h2 with h' | ⟨raw, pr2, hmem, hp⟩
          · by_cases hk : k' = k
            · subst hk
              simp only [lookupV, if_pos rfl] at h'
              exact Or.inr ⟨raw', pr, List.mem_cons_self _ _, Option.some.injEq .. ▸ h'.symm ▸ rfl⟩
            · simp only [lookupV, if_neg hk] at h'
              exact Or.inl h'
          · exact Or.inr ⟨raw, pr2, List.mem_cons_of_mem _ hmem, hp⟩
        · have h2 := h
          rw [List.foldl_cons] at h2
          simp only [if_neg hpr] at h2
          rcases ih _ _ _ h2 with h' | ⟨raw, pr2, hmem, hp⟩
          · exact Or.inl h'
          · exact Or.inr ⟨raw, pr2, List.mem_cons_of_mem _ hmem, hp⟩

theorem collectPrompts_go_frame (segs : List Seg) :
    ∀ (acc : List (String × String)) (k : String),
      (∀ raw pr, Seg.tok raw k (some pr) ∈ segs → goTrimSpace pr = "") →
      lookupV
        (segs.foldl
          (fun acc s =>
            match s with
            | Seg.lit _ => acc
            | Seg.tok _ _ none => acc
            | Seg.tok _ k' (some pr) =>
              if goTrimSpace pr ≠ "" then (k', goTrimSpace pr) :: acc else acc) acc) k
        = lookupV acc k := by
  induction segs with
  | nil => intro acc k _; rfl
  | cons s segs ih =>
    intro acc k hnone
    cases s with
    | lit t => exact ih acc k (fun raw pr hm => hnone raw pr (List.mem_cons_of_mem _ hm))
    | tok raw' k' pr? =>
      cases pr? with
      | none => exact ih acc k (fun raw pr hm => hnone raw pr (List.mem_cons_of_mem _ hm))
      | some pr =>
        by_cases hpr : goTrimSpace pr ≠ ""
        · rw [List.foldl_cons]
          simp only [if_pos hpr]
          rw [ih _ k (fun raw pr2 hm => hnone raw pr2 (List.mem_cons_of_mem _ hm))]
          have hk : k' ≠ k := by
            rintro rfl
            exact hpr (hnone raw' pr (List.mem_cons_self _ _))
          simp [lookupV, hk]
        · rw [List.foldl_cons]
          simp only [if_neg hpr]
          exact ih _ k (fun raw pr2 hm => hnone raw pr2 (List.mem_cons_of_mem _ hm))

theorem fillTemplate_noninteractive (segs : List Seg) (vars : List (String × String))
    (fom : Bool) (order inputs : List String) :
    fillTemplate segs vars false fom order inputs =
      if fom = true ∧ missingKeys order vars ≠ [] then
        { result := Except.error ("missing values for: " ++ joinComma (missingKeys order vars)),
          shown := [] }
      else
        { result := Except.ok (renderSegs vars segs), shown := [] } := by
  simp [fillTemplate]

theorem fillTemplate_shown (segs : List Seg) (vars : List (String × String))
    (fom : Bool) (order inputs : List String) :
    (fillTemplate segs vars true fom order inputs).shown
      = (missingKeys order vars).map (promptText (collectPrompts segs)) := by
  by_cases hm : missingKeys order vars = []
  · simp [fillTemplate, hm]
  · simp only [fillTemplate, hm, ne_eq, not_false_eq_true, and_self, if_true, true_and]
    split <;> rfl

/-- C2 (amended): with `interactive=false` and `failOnMissing=true`,
`fillTemplate` errors exactly when some placeholder key of the body has no
supplied value, and the error message lists exactly the set of absent keys,
each once — in the (unspecified) iteration order of the Go `seen` map,
not in sorted order. -/
theorem C2_fail_on_missing (segs : List Seg) (vars : List (String × String))
    (order inputs : List String) (hord : order.Perm (collectSeen segs)) :
    ((fillTemplate segs vars false true order inputs).result
        = Except.error ("missing values for: " ++ joinComma (missingKeys order vars))
      ↔ missingKeys order vars ≠ [])
    ∧ (missingKeys order vars = []
      ↔ ∀ k ∈ collectSeen segs, (lookupV vars k).isSome = true)
    ∧ (missingKeys order vars = [] →
        (fillTemplate segs vars false true order inputs).result
          = Except.ok (renderSegs vars segs))
    ∧ (missingKeys order vars).Perm
        ((collectSeen segs).filter (fun k => (lookupV vars k).isNone))
    ∧ (missingKeys order vars).Nodup := by
  have hnd : order.Nodup := hord.nodup_iff.mpr (collectSeen_nodup segs)
  refine ⟨?_, ?_, ?_, ?_, ?_⟩
  · by_cases hm : missingKeys order vars = []
    · rw [fillTemplate_noninteractive]
      simp [hm]
    · rw [fillTemplate_noninteractive]
      simp [hm]
  · rw [missingKeys, List.filter_eq_nil_iff]
    constructor
    · intro h k hk
      have := h k (hord.mem_iff.mpr hk)
      cases hv : lookupV vars k <;> simp_all
    · intro h k hk
      have := h k (hord.mem_iff.mp hk)
      cases hv : lookupV vars k <;> simp_all
  · intro hm
    rw [fillTemplate_noninteractive]
    simp [hm]
  · exact hord.filter _
  · exact hnd.filter _

/-- Counterexample to C2 as stated: for the body `"{{b}} {{a}}"` (keys in
first-occurrence order `b`, `a`, both unsupplied) a run in which the Go map
iterates `seen` as `b, a` — a legal iteration order, witnessed as a
permutation of the key set — produces the message `"missing values for:
b, a"`, not the sorted `"missing values for: a, b"` the claim requires. -/
theorem C2_counterexample :
    (fillTemplate
        [Seg.tok "\x7b\x7bb\x7d\x7d" "b" none, Seg.lit " ", Seg.tok "\x7b\x7ba\x7d\x7d" "a" none]
        [] false true ["b", "a"] []).result
      = Except.error "missing values for: b, a"
    ∧ List.Perm ["b", "a"]
        (collectSeen
          [Seg.tok "\x7b\x7bb\x7d\x7d" "b" none, Seg.lit " ", Seg.tok "\x7b\x7ba\x7d\x7d" "a" none])
    ∧ ("missing values for: b, a" : String) ≠ "missing values for: a, b" := by
  refine ⟨by decide, by decide, by decide⟩

/-- Witness for C2 (amended) at the one-key body `"{{K}}"` with no values. -/
theorem C2_witness :
    List.Perm ["K"] (collectSeen [Seg.tok "\x7b\x7bK\x7d\x7d" "K" none])
    ∧ (((fillTemplate [Seg.tok "\x7b\x7bK\x7d\x7d" "K" none] [] false true ["K"] []).result
          = Except.error ("missing values for: " ++ joinComma (missingKeys ["K"] [])))
        ↔ missingKeys ["K"] ([] : List (String × String)) ≠ [])
    ∧ (missingKeys ["K"] ([] : List (String × String))).Nodup :=
  ⟨by decide,
   (C2_fail_on_missing [Seg.tok "\x7b\x7bK\x7d\x7d" "K" none] [] ["K"] [] (by decide)).1,
   (C2_fail_on_missing [Seg.tok "\x7b\x7bK\x7d\x7d" "K" none] [] ["K"] [] (by decide)).2.2.2.2⟩

/-- C3 (amended): in interactive mode `fillTemplate` prompts once for each
missing placeholder key — in the (unspecified) iteration order of the Go
`seen` map, not necessarily in first-occurrence order — showing the key's
trimmed prompt text (followed by a newline and `> `) when some
`{{KEY|prompt}}` token supplied one, and the bare key name (followed by
`: `) otherwise. -/
theorem C3_interactive_prompts (segs : List Seg) (vars : List (String × String))
    (fom : Bool) (order inputs : List String) (hord : order.Perm (collectSeen segs)) :
    (fillTemplate segs vars true fom order inputs).shown
      = (missingKeys order vars).map (promptText (collectPrompts segs))
    ∧ (missingKeys order vars).Nodup
    ∧ (∀ k p, lookupV (collectPrompts segs) k = some p →
        promptText (collectPrompts segs) k = p ++ "\n> "
        ∧ ∃ raw pr, Seg.tok raw k (some pr) ∈ segs ∧ goTrimSpace pr = p)
    ∧ (∀ k, (∀ raw pr, Seg.tok raw k (some pr) ∈ segs → goTrimSpace pr = "") →
        promptText (collectPrompts segs) k = k ++ ": ") := by
  refine ⟨fillTemplate_shown segs vars fom order inputs, ?_, ?_, ?_⟩
  · exact (hord.nodup_iff.mpr (collectSeen_nodup segs)).filter _
  · intro k p hp
    constructor
    · simp [promptText, hp]
    · rcases collectPrompts_go_lookup segs [] k p hp with h | h
      · simp [lookupV] at h
      · exact h
  · intro k hk
    have h : lookupV (collectPrompts segs) k = none := by
      rw [collectPrompts]
      exact (collectPrompts_go_frame segs [] k hk).trans rfl
    simp [promptText, h]

/-- Counterexample to C3 as stated: for the body `"{{b}} {{a}}"` with both
keys unsupplied, first-occurrence order is `b`, `a`, yet a run in which the
Go map iterates `seen` as `a, b` — a legal iteration order, witnessed as a
permutation of the key set — prompts `a` before `b`. -/
theorem C3_counterexample :
    (fillTemplate
        [Seg.tok "\x7b\x7bb\x7d\x7d" "b" none, Seg.lit " ", Seg.tok "\x7b\x7ba\x7d\x7d" "a" none]
        [] true false ["a", "b"] ["x", "y"]).shown
      = ["a: ", "b: "]
    ∧ List.Perm ["a", "b"]
        (collectSeen
          [Seg.tok "\x7b\x7bb\x7d\x7d" "b" none, Seg.lit " ", Seg.tok "\x7b\x7ba\x7d\x7d" "a" none])
    ∧ (["a: ", "b: "] : List String) ≠ ["b: ", "a: "] := by
  refine ⟨by decide, by decide, by decide⟩

/-- Witness for C3 (amended) at a body with one prompt-bearing token and
one bare token. -/
theorem C3_witness :
    List.Perm ["S", "T"]
      (collectSeen
        [Seg.tok "\x7b\x7bS|Give a summary\x7d\x7d" "S" (some "Give a summary"),
         Seg.tok "\x7b\x7bT\x7d\x7d" "T" none])
    ∧ (fillTemplate
        [Seg.tok "\x7b\x7bS|Give a summary\x7d\x7d" "S" (some "Give a summary"),
         Seg.tok "\x7b\x7bT\x7d\x7d" "T" none]
        [] true false ["S", "T"] ["one", "two"]).shown
      = (missingKeys ["S", "T"] []).map
          (promptText
            (collectPrompts
              [Seg.tok "\x7b\x7bS|Give a summary\x7d\x7d" "S" (some "Give a summary"),
               Seg.tok "\x7b\x7bT\x7d\x7d" "T" none]))
    ∧ promptText
        (collectPrompts
          [Seg.tok "\x7b\x7bS|Give a summary\x7d\x7d" "S" (some "Give a summary"),
           Seg.tok "\x7b\x7bT\x7d\x7d" "T" none]) "T"
      = "T" ++ ": " :=
  ⟨by decide,
   (C3_interactive_prompts
      [Seg.tok "\x7b\x7bS|Give a summary\x7d\x7d" "S" (some "Give a summary"),
       Seg.tok "\x7b\x7bT\x7d\x7d" "T" none]
      [] false ["S", "T"] ["one", "two"] (by decide)).1,
   (C3_interactive_prompts
      [Seg.tok "\x7b\x7bS|Give a summary\x7d\x7d" "S" (some "Give a summary"),
       Seg.tok "\x7b\x7bT\x7d\x7d" "T" none]
      [] false ["S", "T"] ["one", "two"] (by decide)).2.2.2 "T"
     (by intro raw pr hm; simp at hm)⟩

theorem foldl_cons_eq_reverse_append {α : Type} (m out : List α) :
    m.foldl (fun acc x => x :: acc) out = m.reverse ++ out := by
  induction m generalizing out with
  | nil => simp
  | cons x m ih => simp [ih, List.append_assoc]

/-- C9: when the same key appears both as a `--var key=value` assignment and
in the decoded variables file, `gatherVars` merges the file on top, so the
file's value wins; and keys and values taken from `key=value` assignments
are whitespace-trimmed before insertion (shown by the one-assignment run). -/
theorem C9_gatherVars (kvs : List String) (m out0 : List (String × String))
    (k v : String)
    (hparse : parseKvsAux [] kvs = Except.ok out0)
    (hnodup : (m.map Prod.fst).Nodup)
    (hmem : (k, v) ∈ m) :
    gatherVars kvs (some m) = Except.ok (m.reverse ++ out0)
    ∧ lookupV (m.reverse ++ out0) k = some v
    ∧ (∀ kv l r, kv ≠ "" → splitEq kv.data = some (l, r) →
        gatherVars [kv] none
          = Except.ok [(goTrimSpace (String.mk l), goTrimSpace (String.mk r))]) := by
  refine ⟨?_, ?_, ?_⟩
  · simp only [gatherVars, hparse]
    rw [foldl_cons_eq_reverse_append]
  · have hrev : lookupV m.reverse k = some v := by
      refine lookupV_of_mem_nodup m.reverse k v ?_ (List.mem_reverse.mpr hmem)
      rw [List.map_reverse]
      exact List.nodup_reverse.mpr hnodup
    exact lookupV_append_left m.reverse out0 k v hrev
  · intro kv l r hne hsplit
    simp only [gatherVars, parseKvsAux, if_neg hne, hsplit]

/-- Witness for C9: key `a` assigned `1` on the command line (with
whitespace) and `2` in the file; the merged map returns `2`. -/
theorem C9_witness :
    parseKvsAux [] [" a = 1 "] = Except.ok [("a", "1")]
    ∧ gatherVars [" a = 1 "] (some [("a", "2")]) = Except.ok ([("a", "2")].reverse ++ [("a", "1")])
    ∧ lookupV ([("a", "2")].reverse ++ [("a", "1")]) "a" = some "2" :=
  ⟨by decide,
   (C9_gatherVars [" a = 1 "] [("a", "2")] [("a", "1")] "a" "2"
      (by decide) (by decide) (by decide)).1,
   (C9_gatherVars [" a = 1 "] [("a", "2")] [("a", "1")] "a" "2"
      (by decide) (by decide) (by decide)).2.1⟩

theorem isPrefixOf_append_self (xs ys : List Char) : xs.isPrefixOf (xs ++ ys) = true := by
  induction xs with
  | nil => simp [List.isPrefixOf]
  | cons c cs ih => simp [List.isPrefixOf, ih]

theorem containsSubAux_self (sub y : List Char) : containsSubAux sub (sub ++ y) = true := by
  cases sub with
  | nil =>
    cases y with
    | nil => rfl
    | cons c cs => simp [containsSubAux, List.isPrefixOf]
  | cons c cs =>
    simp [containsSubAux, isPrefixOf_append_self]

theorem containsSubAux_append (x sub l : List Char) (h : containsSubAux sub l = true) :
    containsSubAux sub (x ++ l) = true := by
  induction x with
  | nil => simpa using h
  | cons c cs ih => simp [containsSubAux, ih]

theorem containsSub_parts (s sub : String) (x y : List Char)
    (h : s.data = x ++ sub.data ++ y) : containsSub s sub = true := by
  rw [containsSub, h, List.append_assoc]
  exact containsSubAux_append x _ _ (containsSubAux_self _ y)

theorem containsSub_append_syncHint (a tk : String) :
    containsSub (a ++ syncHint tk) "Run \x27linear-cli templates sync --team " = true := by
  apply containsSub_parts _ _ a.data (tk.data ++ "\x27 first".data)
  simp [String.data_append, syncHint, List.append_assoc]

/-- C4 (amended): the two `no templates found` errors of `GetLocalTemplate`
— missing metadata index and missing team entry — and every error of
`GetLocalTemplatesForTeam` carry the `Run 'linear-cli templates sync
--team …'` recovery hint; the third not-found case of `GetLocalTemplate`
(template missing within a cached team) does not carry it (see the
counterexample). -/
theorem C4_sync_hint (templatesDir : String) (metadata : Option TemplateMetadata)
    (readFile : String → Option String) (teamKey templateName : String) :
    (∀ e, GetLocalTemplatesForTeam metadata teamKey = Except.error e →
        containsSub e "Run \x27linear-cli templates sync --team " = true)
    ∧ (metadata = none →
        ∃ e, GetLocalTemplate templatesDir metadata readFile teamKey templateName
            = Except.error e
          ∧ containsSub e "Run \x27linear-cli templates sync --team " = true)
    ∧ (∀ md, metadata = some md →
        lookupV md.templates (goToUpper (goTrimSpace teamKey)) = none →
        ∃ e, GetLocalTemplate templatesDir metadata readFile teamKey templateName
            = Except.error e
          ∧ containsSub e "Run \x27linear-cli templates sync --team " = true) := by
  refine ⟨?_, ?_, ?_⟩
  · intro e he
    cases metadata with
    | none =>
      simp only [GetLocalTemplatesForTeam, Except.error.injEq] at he
      rw [← he]
      exact containsSub_append_syncHint _ _
    | some md =>
      cases hl : lookupV md.templates (goToUpper (goTrimSpace teamKey)) with
      | none =>
        simp only [GetLocalTemplatesForTeam, hl, Except.error.injEq] at he
        rw [← he]
        exact containsSub_append_syncHint _ _
      | some td =>
        simp [GetLocalTemplatesForTeam, hl] at he
  · rintro rfl
    exact ⟨_, rfl, containsSub_append_syncHint _ _⟩
  · rintro md rfl hl
    refine
      ⟨("no templates found for team " ++ goToUpper (goTrimSpace teamKey) ++ ". ")
          ++ syncHint (goToUpper (goTrimSpace teamKey)), ?_,
        containsSub_append_syncHint _ _⟩
    simp only [GetLocalTemplate, hl, String.append_assoc]

/-- Counterexample to C4 as stated: with team `ENG` cached but holding no
template named `bug`, the not-found error of `GetLocalTemplate` is
`template 'bug' not found for team ENG`, which contains no instruction to
run a sync (not even the word `sync`). -/
theorem C4_counterexample :
    GetLocalTemplate "dir" (some c4Metadata) (fun _ => none) "ENG" "bug"
      = Except.error "template \x27bug\x27 not found for team ENG"
    ∧ containsSub "template \x27bug\x27 not found for team ENG" "sync" = false := by
  refine ⟨by decide, by decide⟩

/-- Witness for C4 (amended) at concrete inputs (no metadata, and a
metadata without team `OPS`). -/
theorem C4_witness :
    (∀ e, GetLocalTemplatesForTeam (some c4Metadata) "OPS" = Except.error e →
        containsSub e "Run \x27linear-cli templates sync --team " = true)
    ∧ (∃ e, GetLocalTemplate "dir" none (fun _ => none) "ENG" "bug" = Except.error e
        ∧ containsSub e "Run \x27linear-cli templates sync --team " = true) :=
  ⟨(C4_sync_hint "dir" (some c4Metadata) (fun _ => none) "OPS" "bug").1,
   (C4_sync_hint "dir" none (fun _ => none) "ENG" "bug").2.1 rfl⟩

theorem fillSectionLines_append (name content hline : String) (pre post : List String)
    (hpre : ∀ l ∈ pre, ¬(isSectionHeading l = true ∧ headerName l = name))
    (hh : isSectionHeading hline = true) (hn : headerName hline = name) :
    fillSectionLines name content (pre ++ hline :: post)
      = some (pre ++ hline :: "" :: content :: "" :: dropUntilHeading post) := by
  induction pre with
  | nil =>
    simp only [List.nil_append, fillSectionLines]
    rw [if_pos ⟨hh, hn⟩]
  | cons l pre ih =>
    have hl := hpre l (List.mem_cons_self _ _)
    simp only [List.cons_append, fillSectionLines, if_neg hl, List.append_eq,
      ih (fun l' hl' => hpre l' (List.mem_cons_of_mem _ hl'))]

/-- C5: when exactly one line of the body is a `##`/`###` heading whose
text equals `sectionName`, `fillSingleSection` keeps everything up to and
including that heading, replaces all lines strictly between it and the next
heading (or end of document) by one blank line, the supplied content, and
one blank line, and keeps the rest from the next heading on — so the text
strictly between the heading and the next heading is the supplied content
framed by one blank line on each side. -/
theorem C5_section_fill (body name content : String) (pre post : List String)
    (hline : String)
    (hsplit : splitNl body = pre ++ hline :: post)
    (hh : isSectionHeading hline = true)
    (hn : headerName hline = name)
    (hpre : ∀ l ∈ pre, ¬(isSectionHeading l = true ∧ headerName l = name))
    (hpost : ∀ l ∈ post, ¬(isSectionHeading l = true ∧ headerName l = name)) :
    fillSingleSection body name content
      = joinNl (pre ++ hline :: "" :: content :: "" :: dropUntilHeading post) := by
  rw [fillSingleSection, hsplit,
    fillSectionLines_append name content hline pre post hpre hh hn]

/-- Witness for C5 at the body `"## Summary\nold\n## Context\nrest"`. -/
theorem C5_witness :
    fillSingleSection "## Summary\nold\n## Context\nrest" "Summary" "new text"
      = joinNl ([] ++ "## Summary" :: "" :: "new text" :: ""
          :: dropUntilHeading ["old", "## Context", "rest"]) :=
  C5_section_fill "## Summary\nold\n## Context\nrest" "Summary" "new text"
    [] ["old", "## Context", "rest"] "## Summary"
    (by decide) (by decide) (by decide) (by simp) (by decide)

/-- C6: a cached entry whose backing file is missing from disk is classified
as updated by the next sync's partition, even when the cached id equals the
current remote id. -/
theorem C6_missing_file_updated (fs : List String) (templatesDir : String) (team : Team)
    (td : TeamTemplates) (templates : List IssueTemplate) (t : IssueTemplate)
    (e : TemplateInfo)
    (hmem : t ∈ templates)
    (hl : lookupV td.templates t.name = some e)
    (hid : e.id = t.id)
    (hfile : fileExists fs (joinPath (joinPath templatesDir team.key) e.filename) = false) :
    classifyIsUpdated fs templatesDir team (some td) t = true
    ∧ t ∈ updatedPartition fs templatesDir team (some td) templates := by
  have hc : classifyIsUpdated fs templatesDir team (some td) t = true := by
    simp [classifyIsUpdated, hl, hfile]
  exact ⟨hc, List.mem_filter.mpr ⟨hmem, hc⟩⟩

/-- Witness for C6: the cached entry for `My Temp` has the current remote
id but its file is absent from the (empty) filesystem. -/
theorem C6_witness :
    classifyIsUpdated [] "dir" engTeam
        (some { teamID := "T1", teamKey := "ENG",
                templates := [("My Temp", c7OldInfo)], lastSync := 0 })
        { id := "old-id", name := "My Temp" } = true
    ∧ ({ id := "old-id", name := "My Temp" } : IssueTemplate)
        ∈ updatedPartition [] "dir" engTeam
            (some { teamID := "T1", teamKey := "ENG",
                    templates := [("My Temp", c7OldInfo)], lastSync := 0 })
            [{ id := "old-id", name := "My Temp" }] :=
  C6_missing_file_updated [] "dir" engTeam
    { teamID := "T1", teamKey := "ENG", templates := [("My Temp", c7OldInfo)], lastSync := 0 }
    [{ id := "old-id", name := "My Temp" }]
    { id := "old-id", name := "My Temp" } c7OldInfo
    (by decide) (by decide) (by decide) (by decide)

theorem lookupV_filterOut {α : Type} (m : List (String × α)) (k k' : String) :
    lookupV (m.filter (fun kv => kv.1 ≠ k)) k' = if k' = k then none else lookupV m k' := by
  induction m with
  | nil => simp [lookupV]
  | cons kv m ih =>
    obtain ⟨k2, v2⟩ := kv
    rw [List.filter_cons]
    by_cases h2 : k2 = k
    · rw [if_neg (by simp [h2])]
      rw [ih]
      by_cases h3 : k' = k
      · simp [h3]
      · have hne : k2 ≠ k' := by
          rw [h2]
          exact fun hh => h3 hh.symm
        simp [lookupV, hne, h3]
    · rw [if_pos (by simp [h2])]
      by_cases h3 : k2 = k'
      · subst h3
        simp [lookupV, h2]
      · simp only [lookupV, if_neg h3]
        exact ih

theorem lookupV_removeKey {α : Type} (m : List (String × α)) (k k' : String) :
    lookupV (removeKey m k) k' = if k' = k then none else lookupV m k' :=
  lookupV_filterOut m k k'

theorem lookupV_insertV {α : Type} (m : List (String × α)) (k k' : String) (v : α) :
    lookupV (insertV m k v) k' = if k = k' then some v else lookupV m k' := by
  by_cases h : k = k'
  · simp [insertV, lookupV, h]
  · have h2 : ¬k' = k := fun hh => h hh.symm
    simp only [insertV, lookupV, if_neg h, lookupV_filterOut, if_neg h2]

theorem mem_insertPath_of_mem (fs : List String) (p q : String) (h : p ∈ fs) :
    p ∈ insertPath fs q := by
  rw [insertPath]
  split
  · exact h
  · exact List.mem_cons_of_mem _ h

theorem mem_insertPath_self (fs : List String) (q : String) : q ∈ insertPath fs q := by
  rw [insertPath]
  split
  · next hq => exact List.elem_iff.mp hq
  · exact List.mem_cons_self _ _

theorem syncStep_fs_mono (ops : RemoteOps) (team : Team) (now : Nat) (teamDir : String)
    (st : TeamTemplates × List String) (t : IssueTemplate) (p : String) (h : p ∈ st.2) :
    p ∈ (syncStep ops team now teamDir st t).2 := by
  rw [syncStep]
  rcases hs : syncSingleTemplate ops team t now teamDir st with _ | st'
  · exact h
  · rw [syncSingleTemplate] at hs
    rcases hr : (match
        (match lookupV st.1.templates t.name with
          | some e => if e.refIssueID ≠ "" then ops.issueByID e.refIssueID else none
          | none => none) with
        | some i => some i
        | none =>
          ops.createIssueAdvanced
            { teamID := team.id, templateID := t.id, title := "[TEMPLATE-REF] " ++ t.name }) with
      _ | ri
    · rw [hr] at hs
      exact absurd hs (by simp)
    · rw [hr] at hs
      simp only [Option.some.injEq] at hs
      rw [← hs]
      exact mem_insertPath_of_mem _ _ _ h

theorem syncStep_frame (ops : RemoteOps) (team : Team) (now : Nat) (teamDir : String)
    (st : TeamTemplates × List String) (t : IssueTemplate) (n : String) (hn : n ≠ t.name) :
    lookupV (syncStep ops team now teamDir st t).1.templates n = lookupV st.1.templates n := by
  rw [syncStep]
  rcases hs : syncSingleTemplate ops team t now teamDir st with _ | st'
  · rfl
  · rw [syncSingleTemplate] at hs
    rcases hr : (match
        (match lookupV st.1.templates t.name with
          | some e => if e.refIssueID ≠ "" then ops.issueByID e.refIssueID else none
          | none => none) with
        | some i => some i
        | none =>
          ops.createIssueAdvanced
            { teamID := team.id, templateID := t.id, title := "[TEMPLATE-REF] " ++ t.name }) with
      _ | ri
    · rw [hr] at hs
      exact absurd hs (by simp)
    · rw [hr] at hs
      simp only [Option.some.injEq] at hs
      rw [← hs]
      have hne : ¬(t.name = n) := fun hh => hn hh.symm
      simp only [lookupV_insertV, if_neg hne]


theorem syncSingleTemplate_some (ops : RemoteOps) (team : Team) (t : IssueTemplate)
    (now : Nat) (teamDir : String) (st : TeamTemplates × List String)
    (h3 : ∀ inp, (ops.createIssueAdvanced inp).isSome = true) :
    ∃ ri : Issue,
      syncSingleTemplate ops team t now teamDir st
        = some
          ({ st.1 with
              templates := insertV st.1.templates t.name
                { id := t.id, name := t.name,
                  filename := sanitizeFilename t.name ++ ".md", lastSync := now,
                  description :=
                    if ri.description = "" then
                      "# " ++ t.name ++ "\n\n(No template content available)"
                    else ri.description,
                  refIssueID := ri.id, refIssueKey := ri.identifier } },
           insertPath st.2 (joinPath teamDir (sanitizeFilename t.name ++ ".md"))) := by
  simp only [syncSingleTemplate]
  rcases hru : (match lookupV st.1.templates t.name with
      | some e => if e.refIssueID ≠ "" then ops.issueByID e.refIssueID else none
      | none => none) with _ | ru
  · rcases hc : ops.createIssueAdvanced
        { teamID := team.id, templateID := t.id, title := "[TEMPLATE-REF] " ++ t.name }
      with _ | ci
    · exfalso
      have := h3 { teamID := team.id, templateID := t.id, title := "[TEMPLATE-REF] " ++ t.name }
      rw [hc] at this
      simp at this
    · rw [hru]
      exact ⟨ci, rfl⟩
  · rw [hru]
    exact ⟨ru, rfl⟩

theorem syncStep_processed (ops : RemoteOps) (team : Team) (now : Nat) (teamDir : String)
    (st : TeamTemplates × List String) (t : IssueTemplate)
    (h3 : ∀ inp, (ops.createIssueAdvanced inp).isSome = true) :
    ∃ e : TemplateInfo,
      lookupV (syncStep ops team now teamDir st t).1.templates t.name = some e
      ∧ e.id = t.id ∧ e.filename = sanitizeFilename t.name ++ ".md"
      ∧ joinPath teamDir (sanitizeFilename t.name ++ ".md")
          ∈ (syncStep ops team now teamDir st t).2 := by
  obtain ⟨ri, hsi⟩ := syncSingleTemplate_some ops team t now teamDir st h3
  rw [syncStep, hsi]
  simp only [lookupV_insertV, if_pos rfl]
  exact ⟨_, rfl, rfl, rfl, mem_insertPath_self _ _⟩

theorem syncFold_fs_mono (ops : RemoteOps) (team : Team) (now : Nat) (teamDir : String)
    (L : List IssueTemplate) (acc : TeamTemplates × List String) (p : String)
    (h : p ∈ acc.2) : p ∈ (L.foldl (syncStep ops team now teamDir) acc).2 := by
  induction L generalizing acc with
  | nil => simpa using h
  | cons t L ih => exact ih _ (syncStep_fs_mono ops team now teamDir acc t p h)

theorem syncFold_frame (ops : RemoteOps) (team : Team) (now : Nat) (teamDir : String)
    (L : List IssueTemplate) (acc : TeamTemplates × List String) (n : String)
    (hn : n ∉ L.map IssueTemplate.name) :
    lookupV (L.foldl (syncStep ops team now teamDir) acc).1.templates n
      = lookupV acc.1.templates n := by
  induction L generalizing acc with
  | nil => rfl
  | cons t L ih =>
    have hn1 : n ≠ t.name := fun he => hn (by simp [he])
    have hn2 : n ∉ L.map IssueTemplate.name := fun hm => hn (by simp [hm])
    rw [List.foldl_cons, ih _ hn2]
    exact syncStep_frame ops team now teamDir acc t n hn1

theorem syncFold_processed (ops : RemoteOps) (team : Team) (now : Nat) (teamDir : String)
    (L : List IssueTemplate) (acc : TeamTemplates × List String)
    (h3 : ∀ inp, (ops.createIssueAdvanced inp).isSome = true)
    (hnd : (L.map IssueTemplate.name).Nodup) (t : IssueTemplate) (ht : t ∈ L) :
    ∃ e : TemplateInfo,
      lookupV (L.foldl (syncStep ops team now teamDir) acc).1.templates t.name = some e
      ∧ e.id = t.id ∧ e.filename = sanitizeFilename t.name ++ ".md"
      ∧ joinPath teamDir (sanitizeFilename t.name ++ ".md")
          ∈ (L.foldl (syncStep ops team now teamDir) acc).2 := by
  induction L generalizing acc with
  | nil => simp at ht
  | cons t0 L ih =>
    simp only [List.map_cons, List.nodup_cons] at hnd
    rw [List.foldl_cons]
    rcases List.mem_cons.mp ht with rfl | htl
    · obtain ⟨e, he, hid, hfn, hp⟩ := syncStep_processed ops team now teamDir acc t h3
      refine ⟨e, ?_, hid, hfn, ?_⟩
      · rw [syncFold_frame ops team now teamDir L _ t.name hnd.1]
        exact he
      · exact syncFold_fs_mono ops team now teamDir L _ _ hp
    · exact ih _ hnd.2 htl

theorem syncFold_keys (ops : RemoteOps) (team : Team) (now : Nat) (teamDir : String)
    (L : List IssueTemplate) (acc : TeamTemplates × List String) (n : String)
    (h : lookupV (L.foldl (syncStep ops team now teamDir) acc).1.templates n ≠ none) :
    n ∈ L.map IssueTemplate.name ∨ lookupV acc.1.templates n ≠ none := by
  induction L generalizing acc with
  | nil => exact Or.inr h
  | cons t L ih =>
    rw [List.foldl_cons] at h
    rcases ih _ h with hm | hne
    · exact Or.inl (by simp [hm])
    · by_cases he : n = t.name
      · exact Or.inl (by simp [he])
      · rw [syncStep_frame ops team now teamDir acc t n he] at hne
        exact Or.inr hne

theorem removeStep_lookup_sub (teamDir : String) (acc : TeamTemplates × List String)
    (n0 n : String) (e : TemplateInfo)
    (h : lookupV (removeStep teamDir acc n0).1.templates n = some e) :
    lookupV acc.1.templates n = some e := by
  cases hl : lookupV acc.1.templates n0 with
  | none =>
    rw [removeStep, hl] at h
    exact h
  | some e0 =>
    rw [removeStep, hl] at h
    simp only at h
    rw [lookupV_removeKey] at h
    by_cases hn : n = n0
    · rw [if_pos hn] at h
      exact absurd h (by simp)
    · rw [if_neg hn] at h
      exact h

theorem removeFold_lookup_sub (teamDir : String) (remN : List String)
    (acc : TeamTemplates × List String) (n : String) (e : TemplateInfo)
    (h : lookupV (remN.foldl (removeStep teamDir) acc).1.templates n = some e) :
    lookupV acc.1.templates n = some e := by
  induction remN generalizing acc with
  | nil => exact h
  | cons n0 remN ih =>
    rw [List.foldl_cons] at h
    exact removeStep_lookup_sub teamDir acc n0 n e (ih _ h)

theorem removeFold_frame (teamDir : String) (remN : List String)
    (acc : TeamTemplates × List String) (n : String) (hn : n ∉ remN) :
    lookupV (remN.foldl (removeStep teamDir) acc).1.templates n
      = lookupV acc.1.templates n := by
  induction remN generalizing acc with
  | nil => rfl
  | cons n0 remN ih =>
    have hne : n ≠ n0 := fun he => hn (he ▸ List.mem_cons_self _ _)
    rw [List.foldl_cons, ih _ (fun h => hn (List.mem_cons_of_mem _ h))]
    cases hl : lookupV acc.1.templates n0 with
    | none => rw [removeStep, hl]
    | some e0 =>
      rw [removeStep, hl]
      simp only
      rw [lookupV_removeKey, if_neg hne]

theorem removeFold_none_pres (teamDir : String) (remN : List String)
    (acc : TeamTemplates × List String) (n : String)
    (h : lookupV acc.1.templates n = none) :
    lookupV (remN.foldl (removeStep teamDir) acc).1.templates n = none := by
  cases hl : lookupV (remN.foldl (removeStep teamDir) acc).1.templates n with
  | none => rfl
  | some e =>
    have := removeFold_lookup_sub teamDir remN acc n e hl
    rw [h] at this
    exact absurd this (by simp)

theorem removeFold_removed (teamDir : String) (remN : List String)
    (acc : TeamTemplates × List String) (n : String) (hn : n ∈ remN) :
    lookupV (remN.foldl (removeStep teamDir) acc).1.templates n = none := by
  induction remN generalizing acc with
  | nil => simp at hn
  | cons n0 remN ih =>
    rw [List.foldl_cons]
    rcases List.mem_cons.mp hn with rfl | htl
    · apply removeFold_none_pres
      cases hl : lookupV acc.1.templates n with
      | none =>
        rw [removeStep, hl]
        exact hl
      | some e0 =>
        rw [removeStep, hl]
        simp only
        rw [lookupV_removeKey, if_pos rfl]
    · exact ih _ htl

theorem removeFold_fs_mem (teamDir : String) (remN : List String)
    (acc : TeamTemplates × List String) (p : String)
    (hp : p ∈ acc.2)
    (hne : ∀ n ∈ remN, ∀ e : TemplateInfo, lookupV acc.1.templates n = some e →
        joinPath teamDir e.filename ≠ p) :
    p ∈ (remN.foldl (removeStep teamDir) acc).2 := by
  induction remN generalizing acc with
  | nil => exact hp
  | cons n0 remN ih =>
    rw [List.foldl_cons]
    apply ih
    · cases hl : lookupV acc.1.templates n0 with
      | none =>
        rw [removeStep, hl]
        exact hp
      | some e0 =>
        rw [removeStep, hl]
        simp only
        refine (List.mem_erase_of_ne ?_).mpr hp
        exact fun he => (hne n0 (List.mem_cons_self _ _) e0 hl) he.symm
    · intro n hm e hle
      exact hne n (List.mem_cons_of_mem _ hm) e (removeStep_lookup_sub teamDir acc n0 n e hle)

theorem joinPath_ne (a b c : String) (h : b ≠ c) : joinPath a b ≠ joinPath a c := by
  intro he
  apply h
  have hd := congrArg String.data he
  simp only [joinPath, String.data_append, List.append_assoc] at hd
  exact String.ext (List.append_cancel_left (List.append_cancel_left hd))

theorem classifyIsNew_updated_disjoint (fs : List String) (templatesDir : String)
    (team : Team) (existing : Option TeamTemplates) (t : IssueTemplate) :
    ¬(classifyIsNew existing t = true
      ∧ classifyIsUpdated fs templatesDir team existing t = true) := by
  rintro ⟨hN, hU⟩
  cases hE : existing with
  | none =>
    rw [hE] at hU
    simp [classifyIsUpdated] at hU
  | some td =>
    rw [hE] at hN hU
    cases hl : lookupV td.templates t.name with
    | none =>
      rw [classifyIsUpdated, hl] at hU
      simp at hU
    | some e =>
      rw [classifyIsNew, hl] at hN
      simp at hN

theorem name_not_in_partition (templates part : List IssueTemplate)
    (hsub : List.Sublist part templates)
    (h2 : (templates.map IssueTemplate.name).Nodup)
    (t : IssueTemplate) (ht : t ∈ templates) (hnot : t ∉ part) :
    t.name ∉ part.map IssueTemplate.name := by
  intro hmem
  obtain ⟨t', ht', hte⟩ := List.mem_map.mp hmem
  have ht'2 : t' ∈ templates := hsub.subset ht'
  have : t' = t := List.inj_on_of_nodup_map h2 ht'2 ht hte
  exact hnot (this ▸ ht')

/-- After the new/updated processing loops, every catalog template has a
cache entry with the current id and its file on disk; the entry is either
freshly written (sanitized filename) or the untouched cached entry. -/
theorem sync_acc2_key (ops : RemoteOps) (team : Team) (templatesDir teamDir : String)
    (templates : List IssueTemplate) (now : Nat) (st0 : SyncState) (tt0 : TeamTemplates)
    (htt0 : ∀ n, lookupV tt0.templates n = cachedLookup st0.existing n)
    (hteamDir : teamDir = joinPath templatesDir team.key)
    (h2 : (templates.map IssueTemplate.name).Nodup)
    (h3 : ∀ inp, (ops.createIssueAdvanced inp).isSome = true)
    (t : IssueTemplate) (ht : t ∈ templates) :
    ∃ e : TemplateInfo,
      lookupV ((updatedPartition st0.fs templatesDir team st0.existing templates).foldl
            (syncStep ops team now teamDir)
            ((newPartition st0.existing templates).foldl (syncStep ops team now teamDir)
              (tt0, st0.fs))).1.templates t.name = some e
      ∧ e.id = t.id
      ∧ joinPath teamDir e.filename
          ∈ ((updatedPartition st0.fs templatesDir team st0.existing templates).foldl
              (syncStep ops team now teamDir)
              ((newPartition st0.existing templates).foldl (syncStep ops team now teamDir)
                (tt0, st0.fs))).2
      ∧ (e.filename = sanitizeFilename t.name ++ ".md"
        ∨ cachedLookup st0.existing t.name = some e) := by
  have hndN : ((newPartition st0.existing templates).map IssueTemplate.name).Nodup :=
    h2.sublist ((List.filter_sublist templates).map IssueTemplate.name)
  have hndU : ((updatedPartition st0.fs templatesDir team st0.existing templates).map
      IssueTemplate.name).Nodup :=
    h2.sublist ((List.filter_sublist templates).map IssueTemplate.name)
  by_cases hN : classifyIsNew st0.existing t = true
  · have htN : t ∈ newPartition st0.existing templates :=
      List.mem_filter.mpr ⟨ht, hN⟩
    obtain ⟨e, he, hid, hfn, hp⟩ :=
      syncFold_processed ops team now teamDir (newPartition st0.existing templates)
        (tt0, st0.fs) h3 hndN t htN
    have htnotU : t ∉ updatedPartition st0.fs templatesDir team st0.existing templates := by
      intro hmem
      exact classifyIsNew_updated_disjoint st0.fs templatesDir team st0.existing t
        ⟨hN, (List.mem_filter.mp hmem).2⟩
    have hnotu : t.name ∉ (updatedPartition st0.fs templatesDir team st0.existing
        templates).map IssueTemplate.name :=
      name_not_in_partition templates _ (List.filter_sublist templates) h2 t ht htnotU
    refine ⟨e, ?_, hid, ?_, Or.inl hfn⟩
    · rw [syncFold_frame ops team now teamDir _ _ t.name hnotu]
      exact he
    · rw [hfn]
      exact syncFold_fs_mono ops team now teamDir _ _ _ hp
  · by_cases hU : classifyIsUpdated st0.fs templatesDir team st0.existing t = true
    · have htU : t ∈ updatedPartition st0.fs templatesDir team st0.existing templates :=
        List.mem_filter.mpr ⟨ht, hU⟩
      obtain ⟨e, he, hid, hfn, hp⟩ :=
        syncFold_processed ops team now teamDir
          (updatedPartition st0.fs templatesDir team st0.existing templates)
          ((newPartition st0.existing templates).foldl (syncStep ops team now teamDir)
            (tt0, st0.fs)) h3 hndU t htU
      refine ⟨e, he, hid, ?_, Or.inl hfn⟩
      rw [hfn]
      exact hp
    · have hN' : classifyIsNew st0.existing t = false := by
        revert hN
        cases classifyIsNew st0.existing t <;> simp
      cases hE : st0.existing with
      | none =>
        rw [hE] at hN'
        simp [classifyIsNew] at hN'
      | some td =>
        rw [hE] at hN hU htt0
        cases hl : lookupV td.templates t.name with
        | none =>
          exfalso
          apply hN
          rw [classifyIsNew, hl]
          rfl
        | some e =>
          have hUf : classifyIsUpdated st0.fs templatesDir team (some td) t = false := by
            revert hU
            cases classifyIsUpdated st0.fs templatesDir team (some td) t <;> simp
          rw [classifyIsUpdated, hl] at hUf
          have hU2 : (e.id != t.id) = false
              ∧ (!fileExists st0.fs
                  (joinPath (joinPath templatesDir team.key) e.filename)) = false := by
            simpa using hUf
          have hid : e.id = t.id := by simpa using hU2.1
          have hfile : fileExists st0.fs
              (joinPath (joinPath templatesDir team.key) e.filename) = true := by
            simpa using hU2.2
          have htnotN : t ∉ newPartition (some td) templates :=
            fun hmem => hN (List.mem_filter.mp hmem).2
          have htnotU : t ∉ updatedPartition st0.fs templatesDir team (some td)
              templates :=
            fun hmem => hU (List.mem_filter.mp hmem).2
          have hnn : t.name ∉ (newPartition (some td) templates).map
              IssueTemplate.name :=
            name_not_in_partition templates _ (List.filter_sublist templates) h2 t ht htnotN
          have hnu : t.name ∉ (updatedPartition st0.fs templatesDir team (some td)
              templates).map IssueTemplate.name :=
            name_not_in_partition templates _ (List.filter_sublist templates) h2 t ht htnotU
          refine ⟨e, ?_, hid, ?_, Or.inr ?_⟩
          · rw [syncFold_frame ops team now teamDir _ _ t.name hnu,
              syncFold_frame ops team now teamDir _ _ t.name hnn]
            rw [htt0 t.name]
            exact hl
          · have hmem0 : joinPath teamDir e.filename ∈ st0.fs := by
              rw [hteamDir]
              exact List.elem_iff.mp hfile
            exact syncFold_fs_mono ops team now teamDir _ _ _
              (syncFold_fs_mono ops team now teamDir _ _ _ hmem0)
          · exact hl

/-- The up-to-date early return of `syncTeamTemplatesIntelligent`: empty
partitions produce the `Up to date` outcome with the time since the last
sync, and neither the cache entries nor the filesystem change. -/
theorem sync_up_to_date (ops : RemoteOps) (team : Team) (templatesDir : String)
    (templates : List IssueTemplate) (now : Nat) (fmtSince : Nat → String) (st : SyncState)
    (h1 : templates ≠ [])
    (hnew : newPartition st.existing templates = [])
    (hupd : updatedPartition st.fs templatesDir team st.existing templates = [])
    (hrem : removedPartition st.existing templates = []) :
    syncTeamTemplatesIntelligent ops team templatesDir templates now fmtSince st
      = (st, { skipReason := "Up to date (" ++ toString templates.length
                 ++ " templates, last synced "
                 ++ (match st.existing with
                     | some td => fmtSince (now - td.lastSync) ++ " ago"
                     | none => "never") ++ ")",
               syncSummary := "",
               newTemplates := 0, updatedTemplates := 0, removedTemplates := 0 }) := by
  rw [syncTeamTemplatesIntelligent, if_neg h1]
  simp only [hnew, hupd, hrem]
  rw [if_pos ⟨trivial, trivial, trivial⟩]

/-- The removal loop preserves every catalog template's entry and file,
provided no removed entry's file path collides with it. -/
theorem remove_phase_key (teamDir : String) (templates : List IssueTemplate)
    (existing : Option TeamTemplates) (acc2 : TeamTemplates × List String)
    (t : IssueTemplate) (e : TemplateInfo)
    (ht : t ∈ templates)
    (he : lookupV acc2.1.templates t.name = some e)
    (hp : joinPath teamDir e.filename ∈ acc2.2)
    (hframe : ∀ n ∈ removedPartition existing templates,
        lookupV acc2.1.templates n = cachedLookup existing n)
    (hcoll : ∀ n ∈ removedPartition existing templates, ∀ en : TemplateInfo,
        cachedLookup existing n = some en → en.filename ≠ e.filename) :
    lookupV ((removedPartition existing templates).foldl
        (removeStep teamDir) acc2).1.templates t.name = some e
    ∧ joinPath teamDir e.filename
        ∈ ((removedPartition existing templates).foldl (removeStep teamDir) acc2).2 := by
  have htnr : t.name ∉ removedPartition existing templates := by
    intro hmem
    cases hEx : existing with
    | none =>
      rw [hEx] at hmem
      simp [removedPartition] at hmem
    | some td =>
      rw [hEx] at hmem
      have := (List.mem_filter.mp hmem).2
      simp only [Bool.not_eq_true'] at this
      have hmem2 : t.name ∈ templates.map IssueTemplate.name :=
        List.mem_map.mpr ⟨t, ht, rfl⟩
      have h6 : (templates.map IssueTemplate.name).contains t.name = true :=
        List.elem_iff.mpr hmem2
      rw [h6] at this
      exact Bool.noConfusion this
  constructor
  · rw [removeFold_frame teamDir _ _ _ htnr]
    exact he
  · apply removeFold_fs_mem teamDir _ _ _ hp
    intro n hn en hlen
    rw [hframe n hn] at hlen
    exact joinPath_ne teamDir en.filename e.filename (hcoll n hn en hlen)

/-- After the full pipeline, every remaining cache entry names a template
still present in the remote catalog. -/
theorem sync_acc3_names (ops : RemoteOps) (team : Team) (templatesDir teamDir : String)
    (templates : List IssueTemplate) (now : Nat) (st0 : SyncState) (tt0 : TeamTemplates)
    (htt0 : ∀ n, lookupV tt0.templates n = cachedLookup st0.existing n)
    (n : String)
    (hne : lookupV ((removedPartition st0.existing templates).foldl (removeStep teamDir)
        ((updatedPartition st0.fs templatesDir team st0.existing templates).foldl
          (syncStep ops team now teamDir)
          ((newPartition st0.existing templates).foldl (syncStep ops team now teamDir)
            (tt0, st0.fs)))).1.templates n ≠ none) :
    n ∈ templates.map IssueTemplate.name := by
  by_cases hmem : n ∈ templates.map IssueTemplate.name
  · exact hmem
  · exfalso
    cases hc : cachedLookup st0.existing n with
    | none =>
      apply hne
      apply removeFold_none_pres
      have hnN : n ∉ (newPartition st0.existing templates).map IssueTemplate.name := by
        intro hmm
        exact hmem
          (((List.filter_sublist templates).map IssueTemplate.name).subset hmm)
      have hnU : n ∉ (updatedPartition st0.fs templatesDir team st0.existing
          templates).map IssueTemplate.name := by
        intro hmm
        exact hmem
          (((List.filter_sublist templates).map IssueTemplate.name).subset hmm)
      rw [syncFold_frame ops team now teamDir _ _ n hnU,
        syncFold_frame ops team now teamDir _ _ n hnN]
      rw [htt0 n]
      exact hc
    | some e =>
      apply hne
      apply removeFold_removed
      cases hEx : st0.existing with
      | none =>
        rw [hEx] at hc
        exact Option.noConfusion hc
      | some td =>
        rw [hEx] at hc
        have hc2 : lookupV td.templates n = some e := hc
        have hkeymem : n ∈ td.templates.map Prod.fst := by
          by_contra hnk
          have h7 := (lookupV_eq_none_iff td.templates n).mpr hnk
          rw [h7] at hc2
          exact Option.noConfusion hc2
        have hcf : (templates.map IssueTemplate.name).contains n = false := by
          cases hcc : (templates.map IssueTemplate.name).contains n with
          | false => rfl
          | true => exact absurd (List.elem_iff.mp hcc) hmem
        apply List.mem_filter.mpr
        exact ⟨hkeymem, by rw [hcf]; rfl⟩

/-- C7 (amended): (a) when the new, updated and removed partitions are all
empty, the sync reports the `Up to date` outcome — including the time since
the last sync — performs no writes and leaves the state unchanged; and (b)
a second sync immediately after a first one over an unchanged remote
catalog reports zero new, updated and removed templates and leaves the
state unchanged, provided the catalog names are unique, every reference
extraction succeeds, and no removed entry's file collides with a current
template's file (the counterexample shows the claim fails without the last
proviso). -/
theorem C7_sync_idempotent
    (ops : RemoteOps) (team : Team) (templatesDir : String)
    (templates : List IssueTemplate) (now now2 : Nat) (fmtSince : Nat → String)
    (st0 : SyncState)
    (h1 : templates ≠ [])
    (h2 : (templates.map IssueTemplate.name).Nodup)
    (h3 : ∀ inp, (ops.createIssueAdvanced inp).isSome = true)
    (h4 : ∀ n ∈ removedPartition st0.existing templates, ∀ en : TemplateInfo,
        cachedLookup st0.existing n = some en →
        ∀ t ∈ templates,
          en.filename ≠ sanitizeFilename t.name ++ ".md"
          ∧ ∀ e' : TemplateInfo, cachedLookup st0.existing t.name = some e' →
              en.filename ≠ e'.filename) :
    (newPartition st0.existing templates = [] →
      updatedPartition st0.fs templatesDir team st0.existing templates = [] →
      removedPartition st0.existing templates = [] →
      syncTeamTemplatesIntelligent ops team templatesDir templates now fmtSince st0
        = (st0, { skipReason := "Up to date (" ++ toString templates.length
                    ++ " templates, last synced "
                    ++ (match st0.existing with
                        | some td => fmtSince (now - td.lastSync) ++ " ago"
                        | none => "never") ++ ")",
                  syncSummary := "",
                  newTemplates := 0, updatedTemplates := 0, removedTemplates := 0 }))
    ∧ syncTeamTemplatesIntelligent ops team templatesDir templates now2 fmtSince
          (syncTeamTemplatesIntelligent ops team templatesDir templates now fmtSince st0).1
        = ((syncTeamTemplatesIntelligent ops team templatesDir templates now fmtSince st0).1,
           { skipReason := "Up to date (" ++ toString templates.length
               ++ " templates, last synced "
               ++ (match (syncTeamTemplatesIntelligent ops team templatesDir templates
                     now fmtSince st0).1.existing with
                   | some td => fmtSince (now2 - td.lastSync) ++ " ago"
                   | none => "never") ++ ")",
             syncSummary := "",
             newTemplates := 0, updatedTemplates := 0, removedTemplates := 0 }) := by
  constructor
  · intro hn hu hr
    exact sync_up_to_date ops team templatesDir templates now fmtSince st0 h1 hn hu hr
  · by_cases hup : newPartition st0.existing templates = []
        ∧ updatedPartition st0.fs templatesDir team st0.existing templates = []
        ∧ removedPartition st0.existing templates = []
    · have heq := sync_up_to_date ops team templatesDir templates now fmtSince st0 h1
        hup.1 hup.2.1 hup.2.2
      rw [heq]
      exact sync_up_to_date ops team templatesDir templates now2 fmtSince st0 h1
        hup.1 hup.2.1 hup.2.2
    · set teamDir := joinPath templatesDir team.key with hteamDir
      set tt0 : TeamTemplates := (match st0.existing with
          | some td => { td with lastSync := now }
          | none => { teamID := team.id, teamKey := team.key, templates := [],
                      lastSync := now }) with htt0def
      set acc2 := (updatedPartition st0.fs templatesDir team st0.existing templates).foldl
          (syncStep ops team now teamDir)
          ((newPartition st0.existing templates).foldl (syncStep ops team now teamDir)
            (tt0, st0.fs)) with hacc2
      set acc3 := (removedPartition st0.existing templates).foldl (removeStep teamDir) acc2
        with hacc3
      have htt0fact : ∀ n, lookupV tt0.templates n = cachedLookup st0.existing n := by
        intro n
        rw [htt0def]
        cases st0.existing <;> rfl
      have hst1 : (syncTeamTemplatesIntelligent ops team templatesDir templates now
          fmtSince st0).1 = { existing := some acc3.1, fs := acc3.2 } := by
        simp only [syncTeamTemplatesIntelligent]
        rw [if_neg h1, if_neg hup]
      have hkey2 : ∀ t ∈ templates, ∃ e, lookupV acc2.1.templates t.name = some e
          ∧ e.id = t.id ∧ joinPath teamDir e.filename ∈ acc2.2
          ∧ (e.filename = sanitizeFilename t.name ++ ".md"
            ∨ cachedLookup st0.existing t.name = some e) := by
        intro t ht
        rw [hacc2]
        exact sync_acc2_key ops team templatesDir teamDir templates now st0 tt0 htt0fact
          hteamDir h2 h3 t ht
      have hframe2 : ∀ n ∈ removedPartition st0.existing templates,
          lookupV acc2.1.templates n = cachedLookup st0.existing n := by
        intro n hn
        have hnn : n ∉ templates.map IssueTemplate.name := by
          cases hEx : st0.existing with
          | none =>
            rw [hEx] at hn
            simp [removedPartition] at hn
          | some td =>
            rw [hEx] at hn
            have h8 := (List.mem_filter.mp hn).2
            simp only [Bool.not_eq_true'] at h8
            intro hmm
            have h9 : (templates.map IssueTemplate.name).contains n = true :=
              List.elem_iff.mpr hmm
            rw [h9] at h8
            exact Bool.noConfusion h8
        have hnN : n ∉ (newPartition st0.existing templates).map IssueTemplate.name :=
          fun hmm =>
            hnn (((List.filter_sublist templates).map IssueTemplate.name).subset hmm)
        have hnU : n ∉ (updatedPartition st0.fs templatesDir team st0.existing
            templates).map IssueTemplate.name :=
          fun hmm =>
            hnn (((List.filter_sublist templates).map IssueTemplate.name).subset hmm)
        rw [hacc2, syncFold_frame ops team now teamDir _ _ n hnU,
          syncFold_frame ops team now teamDir _ _ n hnN]
        exact htt0fact n
      have hkey3 : ∀ t ∈ templates, ∃ e, lookupV acc3.1.templates t.name = some e
          ∧ e.id = t.id ∧ joinPath teamDir e.filename ∈ acc3.2 := by
        intro t ht
        obtain ⟨e, he, hid, hp, hdisj⟩ := hkey2 t ht
        have hcoll : ∀ n ∈ removedPartition st0.existing templates, ∀ en : TemplateInfo,
            cachedLookup st0.existing n = some en → en.filename ≠ e.filename := by
          intro n hn en hlen
          rcases hdisj with hfn | hcach
          · rw [hfn]
            exact (h4 n hn en hlen t ht).1
          · exact (h4 n hn en hlen t ht).2 e hcach
        obtain ⟨hl3, hp3⟩ := remove_phase_key teamDir templates st0.existing acc2 t e ht
          he hp hframe2 hcoll
        exact ⟨e, by rw [hacc3]; exact hl3, hid, by rw [hacc3]; exact hp3⟩
      have hnew2 : newPartition (some acc3.1) templates = [] := by
        rw [newPartition, List.filter_eq_nil_iff]
        intro t ht hcls
        obtain ⟨e, he, _, _⟩ := hkey3 t ht
        simp [classifyIsNew, he] at hcls
      have hupd2 : updatedPartition acc3.2 templatesDir team (some acc3.1) templates = [] := by
        rw [updatedPartition, List.filter_eq_nil_iff]
        intro t ht hcls
        obtain ⟨e, he, hid, hp⟩ := hkey3 t ht
        have hfe : fileExists acc3.2
            (joinPath (joinPath templatesDir team.key) e.filename) = true := by
          rw [← hteamDir]
          exact List.elem_iff.mpr hp
        simp [classifyIsUpdated, he, hid, hfe] at hcls
      have hrem2 : removedPartition (some acc3.1) templates = [] := by
        rw [show removedPartition (some acc3.1) templates
            = (acc3.1.templates.map Prod.fst).filter
                (fun n => !(templates.map IssueTemplate.name).contains n) from rfl]
        rw [List.filter_eq_nil_iff]
        intro n hn hcon
        have hne3 : lookupV acc3.1.templates n ≠ none := by
          intro h0
          exact ((lookupV_eq_none_iff acc3.1.templates n).mp h0) hn
        have hmem : n ∈ templates.map IssueTemplate.name := by
          rw [hacc3, hacc2] at hne3
          exact sync_acc3_names ops team templatesDir teamDir templates now st0 tt0
            htt0fact n hne3
        have h9 : (templates.map IssueTemplate.name).contains n = true :=
          List.elem_iff.mpr hmem
        rw [h9] at hcon
        exact Bool.noConfusion hcon
      rw [hst1]
      exact sync_up_to_date ops team templatesDir templates now2 fmtSince
        { existing := some acc3.1, fs := acc3.2 } h1 hnew2 hupd2 hrem2

/-- Counterexample to C7 as stated: the cache holds `My Temp`
(file `my-temp.md` on disk) and the remote catalog now has the distinct
name `My_Temp`, which sanitizes to the same filename. The first sync
succeeds (1 new, 1 removed) but the removal deletes the file the new
template just wrote, so the second sync over the unchanged catalog reports
1 updated template, not zero. -/
theorem C7_counterexample :
    (syncTeamTemplatesIntelligent okOps engTeam "dir" c7Catalog 10 (fun _ => "0s")
        c7State0).2.syncSummary = "Synced successfully (1 new, 0 updated, 1 removed)"
    ∧ (syncTeamTemplatesIntelligent okOps engTeam "dir" c7Catalog 20 (fun _ => "0s")
        (syncTeamTemplatesIntelligent okOps engTeam "dir" c7Catalog 10 (fun _ => "0s")
          c7State0).1).2.updatedTemplates = 1
    ∧ (1 : Nat) ≠ 0 := by
  refine ⟨by decide, by decide, by decide⟩

/-- Witness for C7 (amended): a first sync from an empty cache of a
one-template catalog, followed by a second sync, which is up to date. -/
theorem C7_witness :
    syncTeamTemplatesIntelligent okOps engTeam "dir" [{ id := "id1", name := "Temp" }] 2
        (fun _ => "0s")
        (syncTeamTemplatesIntelligent okOps engTeam "dir" [{ id := "id1", name := "Temp" }]
          1 (fun _ => "0s") { existing := none, fs := [] }).1
      = ((syncTeamTemplatesIntelligent okOps engTeam "dir" [{ id := "id1", name := "Temp" }]
            1 (fun _ => "0s") { existing := none, fs := [] }).1,
         { skipReason := "Up to date ("
             ++ toString ([{ id := "id1", name := "Temp" }] : List IssueTemplate).length
             ++ " templates, last synced "
             ++ (match (syncTeamTemplatesIntelligent okOps engTeam "dir"
                   [{ id := "id1", name := "Temp" }] 1 (fun _ => "0s")
                   { existing := none, fs := [] }).1.existing with
                 | some td => (fun (_ : Nat) => "0s") (2 - td.lastSync) ++ " ago"
                 | none => "never") ++ ")",
           syncSummary := "",
           newTemplates := 0, updatedTemplates := 0, removedTemplates := 0 }) :=
  (C7_sync_idempotent okOps engTeam "dir" [{ id := "id1", name := "Temp" }] 1 2
    (fun _ => "0s") { existing := none, fs := [] }
    (by decide) (by decide) (fun _ => rfl)
    (by intro n hn; simp [removedPartition] at hn)).2
